import Mathlib

/-!
Shallow embedding of the session/message persistence and update model of the
Ocean Professional Q&A single-page application (src/react_js_frontend/src/App.js),
together with theorems settling the specification claims about it.

JavaScript strings are modelled as Lean strings; the JavaScript string
operations used by the source (trim, toLowerCase, includes, slice, length)
are embedded as explicit functions over the character list of the string.
-/

namespace OceanQA

/-! ### JavaScript string primitives -/

namespace Js

/-- Embedding of JavaScript String.prototype.trim: drop whitespace from both ends. -/
def trim (s : String) : String :=
  ⟨(((s.data.dropWhile Char.isWhitespace).reverse.dropWhile Char.isWhitespace).reverse)⟩

/-- Embedding of JavaScript String.prototype.toLowerCase (ASCII case mapping). -/
def toLower (s : String) : String :=
  ⟨s.data.map Char.toLower⟩

/-- Embedding of JavaScript String.prototype.includes: substring containment. -/
def includes (hay needle : String) : Bool :=
  decide (needle.data <:+: hay.data)

/-- Embedding of JavaScript String.prototype.slice(0, n): first n characters. -/
def slice (s : String) (n : Nat) : String :=
  ⟨s.data.take n⟩

/-- Embedding of the JavaScript .length property of a string. -/
def len (s : String) : Nat :=
  s.data.length

end Js

/-! ### Data model (spec section 3, App.js session/message object shapes) -/

/-- Message object shape from App.js: fields id, role, content, createdAt and the
optional error flag (absent in JavaScript is modelled as false). -/
structure Message where
  id : String
  role : String
  content : String
  createdAt : String
  error : Bool
deriving Repr, DecidableEq

/-- Session object shape from App.js createNewSession: id, title, createdAt, messages. -/
structure Session where
  id : String
  title : String
  createdAt : String
  messages : List Message
deriving Repr, DecidableEq

/-- Translation of createNewSession (App.js lines 41-48). The id is the template
literal sess_ followed by the decimal rendering of Date.now(); the clock value and
the createdAt timestamp string are passed in as parameters of the embedding. -/
def createNewSession (now : Nat) (createdAt : String) (title : String) : Session :=
  { id := "sess_" ++ Nat.repr now
    title := title
    createdAt := createdAt
    messages := [] }

/-! ### Search/Filter (App.js filteredSessions, lines 128-135) -/

/-- Predicate of the filter callback in filteredSessions: the lowercase title
contains the query, or some message content does. -/
def sessionMatches (q : String) (s : Session) : Bool :=
  Js.includes (Js.toLower s.title) q || s.messages.any fun m => Js.includes (Js.toLower m.content) q

/-- Translation of the filteredSessions memo (App.js lines 128-135): lowercase the
trimmed search text; if empty return the sessions unchanged, otherwise filter. -/
def filterSessions (sessions : List Session) (search : String) : List Session :=
  let q := Js.toLower (Js.trim search)
  if q = "" then sessions else sessions.filter (sessionMatches q)

/-! ### Persistence Gateway (App.js MockStorage, lines 430-451)

The value stored in localStorage under the sessions key is a raw string; the
embedding represents it by the outcome of JSON.parse on it: none models an
absent key, Except.error models a string JSON.parse throws on (for example the
literal string "not json"), and Except.ok v models a string parsing to the
JSON value v. -/

/-- JSON value tree, the result type of a successful JSON.parse. -/
inductive JValue where
  | jnull : JValue
  | jbool (b : Bool) : JValue
  | jnum (n : Int) : JValue
  | jstr (s : String) : JValue
  | jarr (elems : List JValue) : JValue
  | jobj (fields : List (String × JValue)) : JValue
deriving Repr

/-- Content of the sessions storage key, given by its JSON.parse outcome. -/
abbrev SessionsStore := Option (Except Unit JValue)

/-- JSON encoding of a Message object, field for field as App.js creates it. -/
def messageToJ (m : Message) : JValue :=
  .jobj [("id", .jstr m.id), ("role", .jstr m.role), ("content", .jstr m.content),
         ("createdAt", .jstr m.createdAt), ("error", .jbool m.error)]

/-- JSON encoding of a Session object, field for field as App.js creates it. -/
def sessionToJ (s : Session) : JValue :=
  .jobj [("id", .jstr s.id), ("title", .jstr s.title), ("createdAt", .jstr s.createdAt),
         ("messages", .jarr (s.messages.map messageToJ))]

/-- Translation of MockStorage.loadSessions (App.js lines 434-443): empty list when
the key is absent, when JSON.parse throws (the catch branch), or when the parsed
value is not an array; otherwise the parsed array's elements, unvalidated. -/
def loadSessions (st : SessionsStore) : List JValue :=
  match st with
  | none => []
  | some (.error _) => []
  | some (.ok (.jarr xs)) => xs
  | some (.ok _) => []

/-- Translation of MockStorage.saveSessions (App.js lines 445-451): the raw string
written is JSON.stringify of the session array, which parses back to the array of
the sessions' JSON encodings. The successful-write behaviour is modelled; the
silent catch branch for storage failure is outside this deterministic embedding. -/
def saveSessions (sessions : List Session) (_st : SessionsStore) : SessionsStore :=
  some (.ok (.jarr (sessions.map sessionToJ)))

/-! ### Application state and handlers (App.js component state and handlers) -/

/-- React state of the App component that the session model touches:
sessions, activeSessionId, question and isSending (App.js lines 10-13). -/
structure AppState where
  sessions : List Session
  activeSessionId : Option String
  question : String
  isSending : Bool
deriving Repr, DecidableEq

/-- Translation of the activeSession memo (App.js lines 26-29): the first session
whose id equals activeSessionId, or none. A null activeSessionId matches nothing. -/
def activeSession (st : AppState) : Option Session :=
  match st.activeSessionId with
  | none => none
  | some aid => st.sessions.find? fun s => s.id == aid

/-- Translation of updateActiveSessionMessages (App.js lines 98-104): map over the
sessions, applying the updater to the messages of those whose id equals
activeSessionId. -/
def updateActiveSessionMessages (st : AppState) (updater : List Message → List Message) :
    AppState :=
  { st with
    sessions := st.sessions.map fun s =>
      match st.activeSessionId with
      | none => s
      | some aid => if s.id == aid then { s with messages := updater s.messages } else s }

/-- Translation of truncateTitle (App.js lines 94-96): when the text is longer than
len characters, its first len characters followed by a single ellipsis character,
otherwise the text itself. -/
def truncateTitle (text : String) (len : Nat) : String :=
  if Js.len text > len then Js.slice text len ++ "…" else text

/-- Environment of one handleSend call: the two Date.now() clock readings used to
build message ids, the two ISO timestamp strings, and the outcome of the awaited
ApiClient.askQuestion promise (ok carries response.answer, error carries the
exception's message string, with the empty string standing for a falsy message). -/
structure SendEnv where
  nowUser : Nat
  userCreatedAt : String
  nowAsst : Nat
  asstCreatedAt : String
  outcome : Except String String
deriving Repr

/-- User message object built at App.js line 54. -/
def mkUserMsg (st : AppState) (env : SendEnv) : Message :=
  { id := "m_" ++ Nat.repr env.nowUser
    role := "user"
    content := Js.trim st.question
    createdAt := env.userCreatedAt
    error := false }

/-- Assistant message object built at App.js lines 68-73. -/
def mkAsstMsg (env : SendEnv) (answer : String) : Message :=
  { id := "m_" ++ Nat.repr env.nowAsst ++ "_asst"
    role := "assistant"
    content := answer
    createdAt := env.asstCreatedAt
    error := false }

/-- Error message object built at App.js lines 81-87; e.message falsy (modelled by
the empty string) is replaced by the fixed fallback text. -/
def mkErrMsg (env : SendEnv) (em : String) : Message :=
  { id := "m_" ++ Nat.repr env.nowAsst ++ "_err"
    role := "assistant"
    content := "Error: " ++ (if em = "" then "Unable to get answer." else em)
    createdAt := env.asstCreatedAt
    error := true }

/-- Translation of handleSend (App.js lines 51-92). The guard returns the state
unchanged when the trimmed question is empty or no active session exists. Otherwise:
set isSending, optimistically append the user message, clear the question, then on
promise resolution append the assistant message and, when the active session's
message list was empty at call time, replace its title with the truncated user
content; on promise rejection append the error message. The finally block clears
isSending in every case. -/
def handleSend (st : AppState) (env : SendEnv) : AppState :=
  if Js.trim st.question = "" then st else
  match activeSession st with
  | none => st
  | some act =>
    let userMsg := mkUserMsg st env
    let st1 := { st with isSending := true }
    let st2 := updateActiveSessionMessages st1 fun d => d ++ [userMsg]
    let st3 := { st2 with question := "" }
    let st4 : AppState :=
      match env.outcome with
      | .ok answer =>
        let stA : AppState := updateActiveSessionMessages st3 fun d => d ++ [mkAsstMsg env answer]
        if act.messages.length = 0 then
          { stA with
            sessions := stA.sessions.map fun (s : Session) =>
              if s.id == act.id then { s with title := truncateTitle userMsg.content 42 } else s }
        else stA
      | .error em => updateActiveSessionMessages st3 fun d => d ++ [mkErrMsg env em]
    { st4 with isSending := false }

/-- Translation of handleNewSession (App.js lines 106-110): prepend a fresh session
with the default title and make it active. -/
def handleNewSession (st : AppState) (now : Nat) (createdAt : String) : AppState :=
  let s := createNewSession now createdAt "New Session"
  { st with sessions := s :: st.sessions, activeSessionId := some s.id }

/-- Translation of handleDeleteSession (App.js lines 112-117): filter the session
out; when it was the active one, the new active id is the id of the first remaining
session of the pre-delete list, or null — including null when that id is the empty
string, since the source computes it with the falsy-coalescing expression
find(...)?.id || null. -/
def handleDeleteSession (st : AppState) (id : String) : AppState :=
  let sessions' := st.sessions.filter fun s => s.id != id
  let active' :=
    if st.activeSessionId = some id then
      match st.sessions.find? (fun s => s.id != id) with
      | none => none
      | some s => if s.id = "" then none else some s.id
    else st.activeSessionId
  { st with sessions := sessions', activeSessionId := active' }

/-- Translation of the inline rename handler (App.js lines 208-214): prompt may
return null (none); on a truthy title whose trim is truthy, set the trimmed title
on every session whose id equals the active session's id. -/
def renameActiveSession (st : AppState) (title : Option String) : AppState :=
  match activeSession st with
  | none => st
  | some act =>
    match title with
    | none => st
    | some t =>
      if t ≠ "" ∧ Js.trim t ≠ "" then
        { st with
          sessions := st.sessions.map fun s =>
            if s.id == act.id then { s with title := Js.trim t } else s }
      else st

/-! ### Operation sequences over the session collection (claim about create/delete) -/

/-- One sidebar operation on the session collection: a new-session click (carrying
the Date.now() reading and createdAt string) or a delete of a given id. -/
inductive SessionOp where
  | create (now : Nat) (createdAt : String) : SessionOp
  | delete (id : String) : SessionOp
deriving Repr, DecidableEq

/-- Apply one operation through the corresponding App.js handler. -/
def applyOp (st : AppState) (op : SessionOp) : AppState :=
  match op with
  | .create now c => handleNewSession st now c
  | .delete id => handleDeleteSession st id

/-- Apply a sequence of operations from left to right. -/
def runOps (st : AppState) : List SessionOp → AppState
  | [] => st
  | op :: ops => runOps (applyOp st op) ops

/-- State of the application before any session exists. -/
def initState : AppState :=
  { sessions := [], activeSessionId := none, question := "", isSending := false }

/-- Session id values currently in the collection. -/
def sessionIds (st : AppState) : List String :=
  st.sessions.map Session.id

/-- Clock readings of the create operations of a sequence, in order. -/
def createTimes (ops : List SessionOp) : List Nat :=
  ops.filterMap fun op =>
    match op with
    | .create now _ => some now
    | .delete _ => none

/-! ### Injectivity of the decimal rendering used by the template-literal ids -/

lemma toDigitsCore_succ (b fuel n : Nat) (ds : List Char) :
    Nat.toDigitsCore b (fuel + 1) n ds =
      if n / b = 0 then Nat.digitChar (n % b) :: ds
      else Nat.toDigitsCore b fuel (n / b) (Nat.digitChar (n % b) :: ds) := rfl

lemma toDigitsCore_append (b : Nat) (fuel : Nat) :
    ∀ (n : Nat) (ds : List Char),
      Nat.toDigitsCore b fuel n ds = Nat.toDigitsCore b fuel n [] ++ ds := by
  induction fuel with
  | zero => intro n ds; simp [Nat.toDigitsCore]
  | succ fuel ih =>
    intro n ds
    simp only [Nat.toDigitsCore]
    by_cases h : n / b = 0
    · simp [h]
    · simp only [h, if_false]
      rw [ih (n / b) (Nat.digitChar (n % b) :: ds), ih (n / b) [Nat.digitChar (n % b)],
        List.append_assoc]
      simp

lemma toDigitsCore_fuel (b : Nat) (hb : 2 ≤ b) :
    ∀ (n fuel fuel' : Nat), n < fuel → n < fuel' →
      Nat.toDigitsCore b fuel n [] = Nat.toDigitsCore b fuel' n [] := by
  intro n
  induction n using Nat.strong_induction_on with
  | _ n ih =>
    intro fuel fuel' hf hf'
    obtain ⟨f, rfl⟩ : ∃ f, fuel = f + 1 := ⟨fuel - 1, by omega⟩
    obtain ⟨f', rfl⟩ : ∃ f', fuel' = f' + 1 := ⟨fuel' - 1, by omega⟩
    simp only [Nat.toDigitsCore]
    by_cases h : n / b = 0
    · simp [h]
    · simp only [h, if_false]
      have hnpos : 0 < n := by
        rcases Nat.eq_zero_or_pos n with h0 | h0
        · exact absurd (by simp [h0]) h
        · exact h0
      have hdiv : n / b < n := Nat.div_lt_self hnpos (by omega)
      rw [toDigitsCore_append b f, toDigitsCore_append b f',
        ih (n / b) hdiv f f' (by omega) (by omega)]

/-- Decimal digit list of a natural number, as Nat.repr produces it. -/
def digits10 (n : Nat) : List Char :=
  Nat.toDigits 10 n

lemma digits10_eq (n : Nat) :
    digits10 n =
      if n < 10 then [Nat.digitChar n]
      else digits10 (n / 10) ++ [Nat.digitChar (n % 10)] := by
  by_cases h : n < 10
  · have hdiv : n / 10 = 0 := Nat.div_eq_of_lt h
    have hmod : n % 10 = n := Nat.mod_eq_of_lt h
    simp [digits10, Nat.toDigits, Nat.toDigitsCore, hdiv, hmod, h]
  · have hdiv : n / 10 ≠ 0 := by
      intro h0
      exact h (by omega)
    have hlt : n / 10 < n := Nat.div_lt_self (by omega) (by omega)
    rw [if_neg h]
    show Nat.toDigitsCore 10 (n + 1) n [] = _
    rw [toDigitsCore_succ, if_neg hdiv, toDigitsCore_append 10 n,
      toDigitsCore_fuel 10 (by omega) (n / 10) n (n / 10 + 1) (by omega) (by omega)]
    rfl

lemma digits10_ne_nil (n : Nat) : digits10 n ≠ [] := by
  rw [digits10_eq n]
  by_cases h : n < 10 <;> simp [h]

lemma digitChar_inj : ∀ a < 10, ∀ b < 10, Nat.digitChar a = Nat.digitChar b → a = b := by
  decide

lemma digits10_injective : Function.Injective digits10 := by
  intro m
  induction m using Nat.strong_induction_on with
  | _ m ih =>
    intro n h
    rw [digits10_eq m, digits10_eq n] at h
    split_ifs at h with hm hn hn
    · exact digitChar_inj m hm n hn (by simpa using h)
    · exfalso
      have hl := congrArg List.length h
      simp only [List.length_append, List.length_cons, List.length_nil] at hl
      exact digits10_ne_nil (n / 10) (List.eq_nil_of_length_eq_zero (by omega))
    · exfalso
      have hl := congrArg List.length h
      simp only [List.length_append, List.length_cons, List.length_nil] at hl
      exact digits10_ne_nil (m / 10) (List.eq_nil_of_length_eq_zero (by omega))
    · obtain ⟨h1, h2⟩ := List.append_inj' h (by simp)
      have hdivlt : m / 10 < m := Nat.div_lt_self (by omega) (by omega)
      have hdiv : m / 10 = n / 10 := ih (m / 10) hdivlt h1
      have hmod : m % 10 = n % 10 :=
        digitChar_inj (m % 10) (Nat.mod_lt m (by omega)) (n % 10) (Nat.mod_lt n (by omega))
          (by simpa using h2)
      omega

lemma natRepr_injective : Function.Injective Nat.repr := by
  intro a b h
  apply digits10_injective
  have hd := congrArg String.data h
  simpa [Nat.repr, List.asString, digits10] using hd

lemma sessId_inj (a b : Nat) (h : ("sess_" ++ Nat.repr a : String) = "sess_" ++ Nat.repr b) :
    a = b := by
  apply natRepr_injective
  have hd := congrArg String.data h
  simp only [String.data_append] at hd
  exact String.ext (List.append_cancel_left hd)

/-! ### Uniqueness invariant for create/delete sequences -/

lemma sessionIds_handleNewSession (st : AppState) (now : Nat) (c : String) :
    sessionIds (handleNewSession st now c) = ("sess_" ++ Nat.repr now) :: sessionIds st := by
  simp [sessionIds, handleNewSession, createNewSession]

lemma sessionIds_handleDeleteSession_sublist (st : AppState) (id : String) :
    (sessionIds (handleDeleteSession st id)).Sublist (sessionIds st) := by
  simp only [sessionIds, handleDeleteSession]
  exact (List.filter_sublist _).map Session.id

lemma runOps_ids_nodup (ops : List SessionOp) :
    ∀ st : AppState, (sessionIds st).Nodup →
      (∀ id ∈ sessionIds st, ∃ t, id = "sess_" ++ Nat.repr t ∧ t ∉ createTimes ops) →
      (createTimes ops).Nodup →
      (sessionIds (runOps st ops)).Nodup := by
  induction ops with
  | nil => intro st hnd _ _; exact hnd
  | cons op ops ih =>
    intro st hnd hold hops
    cases op with
    | create now c =>
      have hct : createTimes (.create now c :: ops) = now :: createTimes ops := by
        simp [createTimes]
      rw [hct] at hold hops
      refine ih (applyOp st (.create now c)) ?_ ?_ (by exact hops.of_cons)
      · show (sessionIds (handleNewSession st now c)).Nodup
        rw [sessionIds_handleNewSession]
        refine List.nodup_cons.mpr ⟨?_, hnd⟩
        intro hmem
        obtain ⟨t, hid, hnt⟩ := hold _ hmem
        have : t = now := sessId_inj t now hid.symm
        exact hnt (this ▸ List.mem_cons_self now (createTimes ops))
      · show ∀ id ∈ sessionIds (handleNewSession st now c), _
        rw [sessionIds_handleNewSession]
        intro id hmem
        rcases List.mem_cons.mp hmem with heq | hmem'
        · exact ⟨now, heq, (List.nodup_cons.mp hops).1⟩
        · obtain ⟨t, hid, hnt⟩ := hold _ hmem'
          exact ⟨t, hid, fun hc => hnt (List.mem_cons_of_mem _ hc)⟩
    | delete did =>
      have hct : createTimes (.delete did :: ops) = createTimes ops := by
        simp [createTimes]
      rw [hct] at hold hops
      refine ih (applyOp st (.delete did)) ?_ ?_ hops
      · exact hnd.sublist (sessionIds_handleDeleteSession_sublist st did)
      · intro id hmem
        exact hold id ((sessionIds_handleDeleteSession_sublist st did).mem hmem)

lemma createTimes_sublist {pre ops : List SessionOp} (h : pre.Sublist ops) :
    (createTimes pre).Sublist (createTimes ops) :=
  List.Sublist.filterMap _ h

/-! ### Claim C1: uniqueness of session ids under create/delete sequences -/

/-- Claim C1, counterexample: the claim as stated fails on the code. Session ids are
the string sess_ followed by Date.now(); two handleNewSession calls within the same
millisecond (equal clock readings) produce the same id, so after the two-create
sequence below the collection holds the duplicate id sess_0 twice. -/
theorem create_ids_not_always_unique :
    ¬ (sessionIds (runOps initState
        [.create 0 "t0", .create 0 "t1"])).Nodup := by
  decide

/-- Claim C1, amended: for every sequence of handleNewSession/handleDeleteSession
operations starting from the empty collection, if the Date.now() readings of the
create operations are pairwise distinct, the session id values in the collection
are pairwise unique after every prefix of the sequence (at all times). -/
theorem createDelete_ids_unique (ops : List SessionOp)
    (hc : (createTimes ops).Nodup) (pre : List SessionOp) (hpre : pre <+: ops) :
    (sessionIds (runOps initState pre)).Nodup := by
  refine runOps_ids_nodup pre initState (by simp [sessionIds, initState]) ?_
    (hc.sublist (createTimes_sublist hpre.sublist))
  intro id hmem
  simp [sessionIds, initState] at hmem

/-- Witness for createDelete_ids_unique at a concrete operation sequence. -/
theorem createDelete_ids_unique_witness :
    (sessionIds (runOps initState
      [.create 1 "a", .delete "sess_1", .create 2 "b", .create 3 "c"])).Nodup :=
  createDelete_ids_unique
    [.create 1 "a", .delete "sess_1", .create 2 "b", .create 3 "c"]
    (by decide) _ (List.prefix_refl _)

/-! ### Claim C2: the active pointer after deleting the active session -/

/-- Claim C2, counterexample: the claim as stated fails on the code. When the first
remaining session has the empty string as id, the falsy-coalescing expression
find(...)?.id || null in handleDeleteSession yields null although a session
remains, so the pointer is null while the collection is non-empty. -/
theorem deleteActive_pointer_counterexample :
    (handleDeleteSession
        ⟨[⟨"a", "A", "t", []⟩, ⟨"", "B", "t", []⟩], some "a", "", false⟩
        "a").activeSessionId = none
    ∧ (handleDeleteSession
        ⟨[⟨"a", "A", "t", []⟩, ⟨"", "B", "t", []⟩], some "a", "", false⟩
        "a").sessions ≠ [] := by
  decide

/-- Claim C2, amended: for every state all of whose session ids are non-empty
strings, after handleDeleteSession of the currently active session the pointer is
either null with no sessions remaining, or the id of a session still present. -/
theorem deleteActive_pointer_valid (st : AppState) (did : String)
    (hact : st.activeSessionId = some did)
    (hids : ∀ s ∈ st.sessions, s.id ≠ "") :
    ((handleDeleteSession st did).sessions = []
      ∧ (handleDeleteSession st did).activeSessionId = none)
    ∨ (∃ s ∈ (handleDeleteSession st did).sessions,
        (handleDeleteSession st did).activeSessionId = some s.id) := by
  unfold handleDeleteSession
  rw [if_pos hact]
  cases hfind : st.sessions.find? (fun s => s.id != did) with
  | none =>
    left
    constructor
    · rw [List.filter_eq_nil_iff]
      intro s hs
      have := List.find?_eq_none.mp hfind s hs
      simpa using this
    · simp
  | some s =>
    right
    have hmem : s ∈ st.sessions := List.mem_of_find?_eq_some hfind
    have hpred : (s.id != did) = true := by simpa using List.find?_some hfind
    have hne : s.id ≠ "" := hids s hmem
    refine ⟨s, List.mem_filter.mpr ⟨hmem, hpred⟩, ?_⟩
    simp [hne]

/-- Witness for deleteActive_pointer_valid at a concrete state. -/
theorem deleteActive_pointer_valid_witness :
    ((handleDeleteSession ⟨[⟨"a", "A", "t", []⟩, ⟨"b", "B", "t", []⟩], some "a", "", false⟩
        "a").sessions = []
      ∧ (handleDeleteSession ⟨[⟨"a", "A", "t", []⟩, ⟨"b", "B", "t", []⟩], some "a", "", false⟩
        "a").activeSessionId = none)
    ∨ (∃ s ∈ (handleDeleteSession ⟨[⟨"a", "A", "t", []⟩, ⟨"b", "B", "t", []⟩], some "a", "", false⟩
        "a").sessions,
        (handleDeleteSession ⟨[⟨"a", "A", "t", []⟩, ⟨"b", "B", "t", []⟩], some "a", "", false⟩
        "a").activeSessionId = some s.id) :=
  deleteActive_pointer_valid
    ⟨[⟨"a", "A", "t", []⟩, ⟨"b", "B", "t", []⟩], some "a", "", false⟩ "a" rfl (by decide)

/-! ### Claims C4 and C5: the Persistence Gateway -/

lemma messageToJ_injective : Function.Injective messageToJ := by
  intro a b h
  simp only [messageToJ, JValue.jobj.injEq, List.cons.injEq, Prod.mk.injEq,
    JValue.jstr.injEq, JValue.jbool.injEq, true_and, and_true] at h
  obtain ⟨h1, h2, h3, h4, h5⟩ := h
  cases a; cases b; simp_all

lemma sessionToJ_injective : Function.Injective sessionToJ := by
  intro a b h
  simp only [sessionToJ, JValue.jobj.injEq, List.cons.injEq, Prod.mk.injEq,
    JValue.jstr.injEq, JValue.jarr.injEq, true_and, and_true] at h
  obtain ⟨h1, h2, h3, h4⟩ := h
  have hm : a.messages = b.messages :=
    (List.map_injective_iff.mpr messageToJ_injective) h4
  cases a; cases b; simp_all

/-- Claim C4: saving a session list and then loading from the same store returns
exactly the JSON values of the saved sessions — a sequence equal by value to the
input — for any prior store contents; the encoding is injective, so value equality
of the results determines equality of the session lists. -/
theorem saveSessions_loadSessions_roundtrip (S : List Session) (st : SessionsStore) :
    loadSessions (saveSessions S st) = S.map sessionToJ
    ∧ Function.Injective sessionToJ :=
  ⟨rfl, sessionToJ_injective⟩

/-- Claim C5: loadSessions is a total function (the source's try/catch means it
never raises) and returns the empty sequence when the storage key is absent, when
the stored value does not parse (for example the literal string "not json", whose
JSON.parse outcome is the error case), and when the parsed value is not an array. -/
theorem loadSessions_defaults_empty :
    loadSessions none = []
    ∧ (∀ e : Unit, loadSessions (some (.error e)) = [])
    ∧ (∀ v : JValue, (∀ xs, v ≠ .jarr xs) → loadSessions (some (.ok v)) = []) := by
  refine ⟨rfl, fun e => rfl, fun v hv => ?_⟩
  cases v with
  | jarr xs => exact absurd rfl (hv xs)
  | jnull => rfl
  | jbool b => rfl
  | jnum n => rfl
  | jstr s => rfl
  | jobj fields => rfl

/-- Witness for loadSessions_defaults_empty at a concrete non-array stored value. -/
theorem loadSessions_defaults_empty_witness :
    loadSessions (some (.ok (.jstr "not json"))) = [] :=
  loadSessions_defaults_empty.2.2 (.jstr "not json") (fun xs h => by cases h)

/-! ### Claim C6: the search filter -/

lemma jsToLower_eq_empty (s : String) : Js.toLower s = "" ↔ s = "" := by
  constructor
  · intro h
    have hd := congrArg String.data h
    simp only [Js.toLower] at hd
    exact String.ext (List.map_eq_nil_iff.mp hd)
  · intro h
    rw [h]
    rfl

/-- Claim C6: if the query is empty after trimming, filterSessions returns the
input unchanged; otherwise it returns a subsequence of the input (input order
preserved) holding exactly those sessions whose lowercase title contains the
lowercase query or one of whose messages has lowercase content containing it;
and filtering with "FOO" and with "foo" yields identical results. -/
theorem filterSessions_spec (sessions : List Session) (search : String) :
    (Js.trim search = "" → filterSessions sessions search = sessions)
    ∧ (filterSessions sessions search).Sublist sessions
    ∧ (Js.trim search ≠ "" →
        ∀ s, s ∈ filterSessions sessions search ↔
          s ∈ sessions ∧
            (Js.includes (Js.toLower s.title) (Js.toLower (Js.trim search)) = true
              ∨ ∃ m ∈ s.messages,
                  Js.includes (Js.toLower m.content) (Js.toLower (Js.trim search)) = true))
    ∧ filterSessions sessions "FOO" = filterSessions sessions "foo" := by
  refine ⟨?_, ?_, ?_, ?_⟩
  · intro h
    simp [filterSessions, h, (jsToLower_eq_empty "").mpr rfl]
  · unfold filterSessions
    by_cases h : Js.toLower (Js.trim search) = ""
    · simp [h]
    · simp only [h, if_neg]
      exact List.filter_sublist sessions
  · intro h s
    have hq : Js.toLower (Js.trim search) ≠ "" := fun h0 => h ((jsToLower_eq_empty _).mp h0)
    unfold filterSessions
    simp only [hq, if_false, List.mem_filter, sessionMatches, Bool.or_eq_true,
      List.any_eq_true]
  · have h1 : Js.toLower (Js.trim "FOO") = "foo" := by decide
    have h2 : Js.toLower (Js.trim "foo") = "foo" := by decide
    unfold filterSessions
    rw [h1, h2]

/-- Witness for filterSessions_spec: the empty query returns the input unchanged. -/
theorem filterSessions_spec_witness :
    filterSessions [⟨"s1", "Alpha", "t", []⟩] "" = [⟨"s1", "Alpha", "t", []⟩] :=
  (filterSessions_spec [⟨"s1", "Alpha", "t", []⟩] "").1 rfl

/-! ### Characterization lemmas for handleSend -/

lemma activeSession_eq_some (st : AppState) (aid : String) (act : Session)
    (ha : st.activeSessionId = some aid)
    (hfind : st.sessions.find? (fun s => s.id == aid) = some act) :
    activeSession st = some act := by
  simp [activeSession, ha, hfind]

lemma handleSend_error_eq (st : AppState) (env : SendEnv) (aid : String) (act : Session)
    (em : String)
    (ha : st.activeSessionId = some aid)
    (hfind : st.sessions.find? (fun s => s.id == aid) = some act)
    (hq : Js.trim st.question ≠ "")
    (hout : env.outcome = .error em) :
    handleSend st env =
      { sessions := st.sessions.map fun s =>
          if s.id == aid then
            { s with messages := s.messages ++ [mkUserMsg st env, mkErrMsg env em] }
          else s
        activeSessionId := some aid
        question := ""
        isSending := false } := by
  have hact : activeSession st = some act := activeSession_eq_some st aid act ha hfind
  unfold handleSend
  rw [if_neg hq, hact]
  simp only [hout, updateActiveSessionMessages, ha, List.map_map]
  congr 1
  apply List.map_congr_left
  intro s _
  by_cases h : (s.id == aid) = true
  · simp [Function.comp, h]
  · simp [Function.comp, h]

lemma handleSend_ok_first_eq (st : AppState) (env : SendEnv) (aid : String) (act : Session)
    (ans : String)
    (ha : st.activeSessionId = some aid)
    (hfind : st.sessions.find? (fun s => s.id == aid) = some act)
    (hq : Js.trim st.question ≠ "")
    (hout : env.outcome = .ok ans)
    (hlen : act.messages.length = 0) :
    handleSend st env =
      { sessions := st.sessions.map fun s =>
          if s.id == aid then
            { s with
              title := truncateTitle (Js.trim st.question) 42
              messages := s.messages ++ [mkUserMsg st env, mkAsstMsg env ans] }
          else s
        activeSessionId := some aid
        question := ""
        isSending := false } := by
  have hact : activeSession st = some act := activeSession_eq_some st aid act ha hfind
  have haid : act.id = aid := by
    have := List.find?_some hfind
    exact eq_of_beq (by simpa using this)
  unfold handleSend
  rw [if_neg hq, hact]
  simp only [hout, hlen, if_true, updateActiveSessionMessages, ha, haid, List.map_map,
    mkUserMsg]
  congr 1
  apply List.map_congr_left
  intro s _
  by_cases h : (s.id == aid) = true
  · simp [Function.comp, h]
  · simp [Function.comp, h]

lemma handleSend_isSending_false (st : AppState) (env : SendEnv) (act : Session)
    (hq : Js.trim st.question ≠ "") (hact : activeSession st = some act) :
    (handleSend st env).isSending = false := by
  unfold handleSend
  rw [if_neg hq, hact]

lemma activeSession_map_update (sessions : List Session) (aid : String)
    (F : Session → Session) (hF : ∀ s, (F s).id = s.id) (q : String) (b : Bool) :
    activeSession ⟨sessions.map F, some aid, q, b⟩ =
      (sessions.find? (fun s => s.id == aid)).map F := by
  show (sessions.map F).find? (fun s => s.id == aid) = _
  rw [List.find?_map]
  have hp : ((fun s : Session => s.id == aid) ∘ F) = (fun s : Session => s.id == aid) := by
    funext s
    simp [Function.comp, hF]
  rw [hp]

/-! ### Claim C8: the send guard is a no-op -/

/-- Claim C8: when the question is empty or whitespace-only after trimming, or no
session is active, handleSend returns the state unchanged — no message appended, no
session modified, isSending and all other state as before. -/
theorem handleSend_guard_noop (st : AppState) (env : SendEnv)
    (h : Js.trim st.question = "" ∨ activeSession st = none) :
    handleSend st env = st := by
  unfold handleSend
  rcases h with h | h
  · rw [if_pos h]
  · by_cases hq : Js.trim st.question = ""
    · rw [if_pos hq]
    · rw [if_neg hq, h]

/-- Witness for handleSend_guard_noop at a whitespace-only question. -/
theorem handleSend_guard_noop_witness :
    handleSend ⟨[⟨"s1", "T", "t", []⟩], some "s1", "   ", false⟩ ⟨1, "t1", 2, "t2", .ok "a"⟩
      = ⟨[⟨"s1", "T", "t", []⟩], some "s1", "   ", false⟩ :=
  handleSend_guard_noop _ _ (Or.inl (by decide))

/-! ### Claim C7: a rejected query appends exactly one error message -/

/-- Claim C7: on a send whose Query Service call rejects, the sessions afterwards
are the old ones with exactly the optimistic user message and one further message
appended to the active session, that further message has role assistant and
error = true, and isSending is false after the send completes for every outcome,
success or failure alike. -/
theorem queryFailure_one_error_message (st : AppState) (env : SendEnv) (aid : String)
    (act : Session) (em : String)
    (ha : st.activeSessionId = some aid)
    (hfind : st.sessions.find? (fun s => s.id == aid) = some act)
    (hq : Js.trim st.question ≠ "")
    (hout : env.outcome = .error em) :
    (handleSend st env).sessions = (st.sessions.map fun s =>
        if s.id == aid then
          { s with messages := s.messages ++ [mkUserMsg st env, mkErrMsg env em] }
        else s)
    ∧ (mkErrMsg env em).role = "assistant"
    ∧ (mkErrMsg env em).error = true
    ∧ ∀ env' : SendEnv, (handleSend st env').isSending = false := by
  refine ⟨?_, rfl, rfl, fun env' =>
    handleSend_isSending_false st env' act hq (activeSession_eq_some st aid act ha hfind)⟩
  rw [handleSend_error_eq st env aid act em ha hfind hq hout]

/-- Witness for queryFailure_one_error_message at a concrete failing send. -/
theorem queryFailure_one_error_message_witness :
    (handleSend ⟨[⟨"s1", "T", "t0", []⟩], some "s1", "q", false⟩
        ⟨1, "t1", 2, "t2", .error "boom"⟩).sessions
      = [⟨"s1", "T", "t0",
          [⟨"m_1", "user", "q", "t1", false⟩,
           ⟨"m_2_err", "assistant", "Error: boom", "t2", true⟩]⟩]
    ∧ (handleSend ⟨[⟨"s1", "T", "t0", []⟩], some "s1", "q", false⟩
        ⟨1, "t1", 2, "t2", .error "boom"⟩).isSending = false := by
  obtain ⟨h1, _, _, h4⟩ := queryFailure_one_error_message
    ⟨[⟨"s1", "T", "t0", []⟩], some "s1", "q", false⟩ ⟨1, "t1", 2, "t2", .error "boom"⟩
    "s1" ⟨"s1", "T", "t0", []⟩ "boom" rfl (by decide) (by decide) rfl
  refine ⟨?_, h4 ⟨1, "t1", 2, "t2", .error "boom"⟩⟩
  rw [h1]
  decide

/-! ### Claim C9: a successful first send leaves exactly user then assistant -/

/-- Claim C9: a successful send of a non-empty question against an active session
whose message list was empty leaves that session with exactly two messages, the
first with role user carrying the (trimmed) question and the second with role
assistant, in that order. -/
theorem successFirstSend_two_messages (st : AppState) (env : SendEnv) (aid : String)
    (act : Session) (ans : String)
    (ha : st.activeSessionId = some aid)
    (hfind : st.sessions.find? (fun s => s.id == aid) = some act)
    (hq : Js.trim st.question ≠ "")
    (hout : env.outcome = .ok ans)
    (hempty : act.messages = []) :
    ∃ act', activeSession (handleSend st env) = some act'
      ∧ act'.messages = [mkUserMsg st env, mkAsstMsg env ans]
      ∧ (mkUserMsg st env).role = "user"
      ∧ (mkUserMsg st env).content = Js.trim st.question
      ∧ (mkAsstMsg env ans).role = "assistant" := by
  rw [handleSend_ok_first_eq st env aid act ans ha hfind hq hout (by rw [hempty]; rfl)]
  have haid : (act.id == aid) = true := by simpa using List.find?_some hfind
  refine ⟨{ act with
      title := truncateTitle (Js.trim st.question) 42
      messages := act.messages ++ [mkUserMsg st env, mkAsstMsg env ans] }, ?_, ?_, rfl, rfl, rfl⟩
  · rw [activeSession_map_update st.sessions aid _
      (fun s => by by_cases h : (s.id == aid) = true <;> simp [h]) "" false, hfind]
    simp [eq_of_beq haid]
  · rw [hempty]
    rfl

/-- Witness for successFirstSend_two_messages at a concrete successful first send. -/
theorem successFirstSend_two_messages_witness :
    (activeSession (handleSend ⟨[⟨"s1", "New Session", "t0", []⟩], some "s1", "q", false⟩
        ⟨1, "t1", 2, "t2", .ok "ans"⟩)).map Session.messages
      = some [⟨"m_1", "user", "q", "t1", false⟩,
              ⟨"m_2_asst", "assistant", "ans", "t2", false⟩] := by
  obtain ⟨act', h1, h2, _, _, _⟩ := successFirstSend_two_messages
    ⟨[⟨"s1", "New Session", "t0", []⟩], some "s1", "q", false⟩ ⟨1, "t1", 2, "t2", .ok "ans"⟩
    "s1" ⟨"s1", "New Session", "t0", []⟩ "ans" rfl (by decide) (by decide) rfl rfl
  rw [h1, Option.map_some', h2]
  decide

/-! ### Claim C3: the auto-assigned title of a first send -/

/-- Claim C3, counterexample: the claim as stated fails on the code. The question
text " x" has length 2, at most 42, so the claim says the title becomes " x"
itself; the code trims the question before storing and titling, so the title
becomes "x", not the question text. -/
theorem firstSend_title_counterexample :
    Js.len " x" ≤ 42
    ∧ (activeSession (handleSend ⟨[⟨"s1", "New Session", "t0", []⟩], some "s1", " x", false⟩
        ⟨1, "t1", 2, "t2", .ok "ans"⟩)).map Session.title = some "x"
    ∧ ("x" : String) ≠ " x" := by
  decide

/-- Claim C3, amended: with t the trimmed question text, when the first successful
send completes on a session whose message list was empty before the send, the
session's title becomes t itself if t has at most 42 characters, and otherwise
exactly the first 42 characters of t followed by a single ellipsis character. -/
theorem firstSend_title_truncated (st : AppState) (env : SendEnv) (aid : String)
    (act : Session) (ans : String)
    (ha : st.activeSessionId = some aid)
    (hfind : st.sessions.find? (fun s => s.id == aid) = some act)
    (hq : Js.trim st.question ≠ "")
    (hout : env.outcome = .ok ans)
    (hempty : act.messages = []) :
    ∃ act', activeSession (handleSend st env) = some act'
      ∧ act'.title =
          (if Js.len (Js.trim st.question) ≤ 42 then Js.trim st.question
           else Js.slice (Js.trim st.question) 42 ++ "…") := by
  rw [handleSend_ok_first_eq st env aid act ans ha hfind hq hout (by rw [hempty]; rfl)]
  have haid : (act.id == aid) = true := by simpa using List.find?_some hfind
  refine ⟨{ act with
      title := truncateTitle (Js.trim st.question) 42
      messages := act.messages ++ [mkUserMsg st env, mkAsstMsg env ans] }, ?_, ?_⟩
  · rw [activeSession_map_update st.sessions aid _
      (fun s => by by_cases h : (s.id == aid) = true <;> simp [h]) "" false, hfind]
    simp [eq_of_beq haid]
  · show truncateTitle (Js.trim st.question) 42 = _
    unfold truncateTitle
    by_cases h : Js.len (Js.trim st.question) > 42
    · rw [if_pos h, if_neg (by omega)]
    · rw [if_neg h, if_pos (by omega)]

/-- Witness for firstSend_title_truncated: a 60-character question yields the
first 42 characters followed by one ellipsis character. -/
theorem firstSend_title_truncated_witness :
    (activeSession (handleSend
        ⟨[⟨"s1", "New Session", "t0", []⟩], some "s1",
          "123456789012345678901234567890123456789012345678901234567890", false⟩
        ⟨1, "t1", 2, "t2", .ok "ans"⟩)).map Session.title
      = some "123456789012345678901234567890123456789012…" := by
  obtain ⟨act', h1, h2⟩ := firstSend_title_truncated
    ⟨[⟨"s1", "New Session", "t0", []⟩], some "s1",
      "123456789012345678901234567890123456789012345678901234567890", false⟩
    ⟨1, "t1", 2, "t2", .ok "ans"⟩ "s1" ⟨"s1", "New Session", "t0", []⟩ "ans"
    rfl (by decide) (by decide) rfl rfl
  rw [h1, Option.map_some', h2]
  decide

/-! ### Claim C10: renaming stores the trimmed title and changes nothing else -/

/-- Claim C10: renaming the active session with a title that is non-empty after
trimming stores the trimmed form of the supplied string; the sessions correspond
pairwise to the old ones with id, createdAt and messages unchanged, the title
replaced by the trimmed input exactly on sessions whose id is the active one, and
the rest of the application state untouched. -/
theorem renameActive_stores_trimmed_title (st : AppState) (act : Session) (t : String)
    (hact : activeSession st = some act)
    (ht : Js.trim t ≠ "") :
    ((renameActiveSession st (some t)).activeSessionId = st.activeSessionId
      ∧ (renameActiveSession st (some t)).question = st.question
      ∧ (renameActiveSession st (some t)).isSending = st.isSending)
    ∧ List.Forall₂ (fun s s' : Session =>
        s'.id = s.id ∧ s'.createdAt = s.createdAt ∧ s'.messages = s.messages
          ∧ s'.title = (if s.id == act.id then Js.trim t else s.title))
        st.sessions (renameActiveSession st (some t)).sessions := by
  have hne : t ≠ "" := by
    intro h0
    apply ht
    rw [h0]
    rfl
  unfold renameActiveSession
  simp only [hact]
  rw [if_pos ⟨hne, ht⟩]
  refine ⟨⟨rfl, rfl, rfl⟩, ?_⟩
  rw [List.forall₂_map_right_iff, List.forall₂_same]
  intro s _
  by_cases h : (s.id == act.id) = true
  · simp [h]
  · simp [h]

/-- Witness for renameActive_stores_trimmed_title at a concrete rename. -/
theorem renameActive_stores_trimmed_title_witness :
    List.Forall₂ (fun s s' : Session =>
        s'.id = s.id ∧ s'.createdAt = s.createdAt ∧ s'.messages = s.messages
          ∧ s'.title = (if s.id == (⟨"s1", "Old", "t", []⟩ : Session).id then Js.trim "  New  "
                        else s.title))
      [⟨"s1", "Old", "t", []⟩, ⟨"s2", "Keep", "t", []⟩]
      (renameActiveSession ⟨[⟨"s1", "Old", "t", []⟩, ⟨"s2", "Keep", "t", []⟩], some "s1", "", false⟩
        (some "  New  ")).sessions :=
  (renameActive_stores_trimmed_title
    ⟨[⟨"s1", "Old", "t", []⟩, ⟨"s2", "Keep", "t", []⟩], some "s1", "", false⟩
    ⟨"s1", "Old", "t", []⟩ "  New  " (by decide) (by decide)).2

end OceanQA
